import Mathlib

/-!
Verification of the `llmrepo` tool/toolbox runtime (`src/llmrepo/tools/__init__.py`)
against its natural-language specification.

The development shallowly embeds the parts of the runtime that the claims
talk about:

* a universe `PyVal` of Python runtime values, with the native-type test
  `isinst` mirroring Python's `isinstance` (in particular `bool` is a
  subclass of `int` in Python, so `isinstance(True, int)` is true);
* insertion-ordered string-keyed dictionaries as association lists with
  Python-dict `get`/`set`/membership semantics;
* the parameter validation engine `_validate_parameters`;
* the two-tier context store `ToolContext` (private/internal tier plus a
  reference to a shared tier), and a small heap of shared maps so that the
  toolbox-attachment aliasing (`tool.context._shared_context = self.context`)
  can be stated;
* the lifecycle hook registry and the invocation interceptor installed by
  `BaseTool.__getattribute__`, modelled as trace-producing functions where a
  hook callback is an identifier together with its behaviour (returning
  normally or raising an exception).
-/

/-- A Python runtime value, as far as the runtime under study distinguishes
them.  The `float` payload is an opaque tag: the validation engine only ever
inspects the *type* of a float, never its numeric value, so no floating-point
arithmetic is modelled. -/
inductive PyVal where
  | none
  | bool (b : Bool)
  | int (n : Int)
  | float (tag : Int)
  | str (s : String)
  | list (xs : List PyVal)
  | dict (xs : List (String × PyVal))
  | tuple (xs : List PyVal)
  | set (xs : List PyVal)

/-- The eight native types that `_validate_parameters`' `type_map` maps type
strings onto. -/
inductive PyType where
  | str | int | float | bool | list | dict | tuple | set
deriving DecidableEq, Repr

/-- Model of `type(v).__name__` for the values of `PyVal`. -/
def typeName : PyVal → String
  | .none => "NoneType"
  | .bool _ => "bool"
  | .int _ => "int"
  | .float _ => "float"
  | .str _ => "str"
  | .list _ => "list"
  | .dict _ => "dict"
  | .tuple _ => "tuple"
  | .set _ => "set"

/-- Model of `v is None` (identity test against the `None` singleton). -/
def PyVal.isNone : PyVal → Bool
  | .none => true
  | _ => false

/-- Model of Python's `isinstance(v, t)` for the eight native types of `type_map`.
All pairs are exact matches except that `bool` is a subclass of `int` in
Python, so boolean values are also instances of `int`.  (`int` is *not* a
subclass of `float`, and `None` is an instance of none of the eight.) -/
def isinst : PyVal → PyType → Bool
  | .str _, .str => true
  | .int _, .int => true
  | .bool _, .int => true
  | .bool _, .bool => true
  | .float _, .float => true
  | .list _, .list => true
  | .dict _, .dict => true
  | .tuple _, .tuple => true
  | .set _, .set => true
  | _, _ => false

/-- An insertion-ordered Python dictionary with string keys. -/
def Dict := List (String × PyVal)

/-- Dictionary lookup (`d.get(k)` / `k in d` support). -/
def dget (k : String) : Dict → Option PyVal
  | [] => Option.none
  | (k1, v1) :: rest => if k1 = k then some v1 else dget k rest

/-- Membership test `k in d`. -/
def dmem (k : String) (d : Dict) : Bool :=
  (dget k d).isSome

/-- Assignment `d[k] = v`: replace the value in place if the key is present (Python
dicts keep the original insertion position), otherwise append the new key at
the end. -/
def dset (k : String) (v : PyVal) : Dict → Dict
  | [] => [(k, v)]
  | (k1, v1) :: rest => if k1 = k then (k, v) :: rest else (k1, v1) :: dset k v rest

/-- One declared parameter (`ToolParameter`).  Python cannot distinguish "no
default" from `default=None`, so a null default is `PyVal.none`. -/
structure ToolParameter where
  name : String
  type : String
  description : String
  required : Bool
  default : PyVal

/-- The failure outcomes of `_validate_parameters`.  `unexpectedParameters`,
`missingRequired` and `unsupportedType` are raised as `ValueError`,
`typeMismatch` as `TypeError`; a `typeMismatch` carries the parameter name,
the declared type string and `type(value).__name__`. -/
inductive VErr where
  | unexpectedParameters (names : List String)
  | missingRequired (pname : String)
  | unsupportedType (tname : String)
  | typeMismatch (pname : String) (expected : String) (got : String)
deriving DecidableEq, Repr

/-- Model of `str.lower()` on the declared type string (ASCII case folding; the type
strings the runtime compares against are all ASCII). -/
def strLower (s : String) : String :=
  ⟨s.data.map Char.toLower⟩

/-- The `type_map` of `_validate_parameters`: the closed mapping from type
strings to native types. -/
def typeMap : String → Option PyType
  | "str" => some .str
  | "int" => some .int
  | "float" => some .float
  | "bool" => some .bool
  | "list" => some .list
  | "dict" => some .dict
  | "tuple" => some .tuple
  | "set" => some .set
  | _ => Option.none

/-- One iteration of the per-parameter loop of `_validate_parameters`, for
declared parameter `pname` with spec `spec` against the current (possibly
already default-augmented) argument dictionary:

* if the parameter is required, absent, and its default is null, raise
  `Missing required parameter`;
* if it is required, absent, with a non-null default, inject the default;
* if it is (now) present with value `None`: required parameters raise a
  type mismatch (`got NoneType`), optional ones are replaced by their
  declared default and the type check is skipped (`continue`);
* otherwise resolve `spec.type.lower()` in `type_map` (unknown type strings
  raise `Unsupported parameter type`) and test the value with `isinstance`,
  raising a type mismatch on failure. -/
def validateOne (pname : String) (spec : ToolParameter) (kwargs : Dict) :
    Except VErr Dict :=
  if spec.required && !(dmem pname kwargs) && spec.default.isNone then
    .error (.missingRequired pname)
  else
    let kwargs1 :=
      if spec.required && !(dmem pname kwargs) then dset pname spec.default kwargs
      else kwargs
    match dget pname kwargs1 with
    | Option.none => .ok kwargs1
    | Option.some v =>
      if v.isNone then
        if spec.required then .error (.typeMismatch pname spec.type "NoneType")
        else .ok (dset pname spec.default kwargs1)
      else
        match typeMap (strLower spec.type) with
        | Option.none => .error (.unsupportedType spec.type)
        | Option.some ty =>
          if isinst v ty then .ok kwargs1
          else .error (.typeMismatch pname spec.type (typeName v))

/-- The per-parameter loop of `_validate_parameters`, over the declared
parameters in declaration order, threading the argument dictionary (the
Python code mutates `kwargs` in place; the model threads it explicitly and
returns the normalized dictionary). -/
def validateLoop : List (String × ToolParameter) → Dict → Except VErr Dict
  | [], kwargs => .ok kwargs
  | (pname, spec) :: rest, kwargs =>
    match validateOne pname spec kwargs with
    | .error e => .error e
    | .ok kwargs1 => validateLoop rest kwargs1

/-- The set difference `set(kwargs.keys()) - set(self.parameters.keys())`, listed in supplied
order (the claims never inspect the ordering of the offending keys). -/
def unexpectedKeys (params : List (String × ToolParameter)) (kwargs : Dict) :
    List String :=
  (kwargs.filter (fun kv => !(params.any (fun p => p.1 == kv.1)))).map Prod.fst

/-- Model of `BaseTool._validate_parameters`: an empty supplied dictionary returns
immediately (`if not kwargs: return`); otherwise undeclared keys raise
`Unexpected parameters`, and then every declared parameter is checked in
declaration order. -/
def validate_parameters (params : List (String × ToolParameter)) (kwargs : Dict) :
    Except VErr Dict :=
  if kwargs.isEmpty then .ok kwargs
  else if !(unexpectedKeys params kwargs).isEmpty then
    .error (.unexpectedParameters (unexpectedKeys params kwargs))
  else validateLoop params kwargs

/-! ### Basic dictionary lemmas -/

theorem dget_dset_self (k : String) (v : PyVal) (d : Dict) :
    dget k (dset k v d) = some v := by
  induction d with
  | nil => simp [dget, dset]
  | cons hd tl ih =>
    obtain ⟨k1, v1⟩ := hd
    by_cases h : k1 = k
    · simp [dget, dset, h]
    · simp [dget, dset, h, ih]

theorem dmem_dset_self (k : String) (v : PyVal) (d : Dict) :
    dmem k (dset k v d) = true := by
  simp [dmem, dget_dset_self]

/-! ### Sanity checks against the repository's own test suite -/

/-- The parameter set of `SimpleTool` in `src/tests/test_basic_tool.py`:
a required `text : str` and an optional `count : int` with default `1`. -/
def simpleParams : List (String × ToolParameter) :=
  [("text", ⟨"text", "str", "Input text", true, PyVal.none⟩),
   ("count", ⟨"count", "int", "Number of times to repeat", false, PyVal.int 1⟩)]

example :
    validate_parameters simpleParams [("text", PyVal.str "hello"), ("count", PyVal.int 2)] =
      .ok [("text", PyVal.str "hello"), ("count", PyVal.int 2)] := rfl

example :
    validate_parameters simpleParams [("text", PyVal.int 123)] =
      .error (.typeMismatch "text" "str" "int") := rfl

example :
    validate_parameters simpleParams
        [("text", PyVal.str "hello"), ("invalid_param", PyVal.bool true)] =
      .error (.unexpectedParameters ["invalid_param"]) := rfl

example :
    validate_parameters simpleParams [("count", PyVal.int 2)] =
      .error (.missingRequired "text") := rfl

/-! ### Splitting the validation loop -/

theorem validateLoop_append (pre post : List (String × ToolParameter)) (kwargs : Dict) :
    validateLoop (pre ++ post) kwargs =
      match validateLoop pre kwargs with
      | .error e => .error e
      | .ok kwargs1 => validateLoop post kwargs1 := by
  induction pre generalizing kwargs with
  | nil => simp [validateLoop]
  | cons hd tl ih =>
    obtain ⟨pname, spec⟩ := hd
    simp only [List.cons_append, validateLoop]
    cases validateOne pname spec kwargs with
    | error e => rfl
    | ok kwargs1 => exact ih kwargs1

theorem dget_eq_none_of_not_dmem (k : String) (d : Dict) (h : dmem k d = false) :
    dget k d = Option.none := by
  cases hg : dget k d with
  | none => rfl
  | some v => rw [dmem, hg] at h; exact Bool.noConfusion h

/-! ### Claim C1 -/

/-- The single declared parameter used to refute C1: a required `text : str`
with a null default. -/
def c1Params : List (String × ToolParameter) :=
  [("text", ⟨"text", "str", "Input text", true, PyVal.none⟩)]

/-- C1 counterexample.  The claim asserts that invoking with an entirely
empty argument map still fails with `MissingRequiredParameter` for a
required parameter with a null default.  In the code, `_validate_parameters`
returns immediately on an empty `kwargs` (`if not kwargs: return`), so the
empty call passes validation instead of failing. -/
theorem C1_counterexample :
    validate_parameters c1Params [] = .ok []
      ∧ validate_parameters c1Params [] ≠ .error (.missingRequired "text") := by
  refine ⟨rfl, fun h => ?_⟩
  rw [show validate_parameters c1Params [] = .ok [] from rfl] at h
  exact Except.noConfusion h

/-- C1 (amended): for a *non-empty* supplied argument map containing no
undeclared keys, a declared required parameter with a null default that is
absent from the arguments (as normalized by the declared parameters before
it, all of which validate successfully) makes validation fail with
`MissingRequiredParameter` naming exactly that parameter; an entirely empty
supplied argument map bypasses validation and succeeds trivially. -/
theorem C1_missing_required (pre post : List (String × ToolParameter))
    (pname : String) (spec : ToolParameter) (kwargs kwargs1 : Dict)
    (hne : kwargs.isEmpty = false)
    (hu : unexpectedKeys (pre ++ (pname, spec) :: post) kwargs = [])
    (hpre : validateLoop pre kwargs = .ok kwargs1)
    (hreq : spec.required = true) (hdef : spec.default = PyVal.none)
    (habs : dmem pname kwargs1 = false) :
    validate_parameters (pre ++ (pname, spec) :: post) kwargs =
      .error (.missingRequired pname) := by
  have hone : validateOne pname spec kwargs1 = .error (.missingRequired pname) := by
    unfold validateOne
    rw [hreq, habs, hdef]
    simp [PyVal.isNone]
  have hloop : validateLoop (pre ++ (pname, spec) :: post) kwargs =
      .error (.missingRequired pname) := by
    rw [validateLoop_append, hpre]
    simp only [validateLoop, hone]
  simp [validate_parameters, hne, hu, hloop]

/-- Witness for C1 (amended), at the spec's own concrete scenario: calling
the `text`/`count` tool with `{count: 2}` fails with
`MissingRequiredParameter("text")`. -/
theorem C1_missing_required_witness :
    validate_parameters simpleParams [("count", PyVal.int 2)] =
      .error (.missingRequired "text") := by
  have h := C1_missing_required []
    [("count", ⟨"count", "int", "Number of times to repeat", false, PyVal.int 1⟩)]
    "text" ⟨"text", "str", "Input text", true, PyVal.none⟩
    [("count", PyVal.int 2)] [("count", PyVal.int 2)]
    rfl rfl rfl rfl rfl rfl
  simpa [simpleParams] using h

/-! ### Claim C2 -/

/-- The declared `int` parameter used to refute C2. -/
def c2IntSpec : ToolParameter := ⟨"n", "int", "An integer parameter", true, PyVal.none⟩

/-- C2 counterexample.  The claim asserts that a `bool` is never accepted
where `int` is declared.  The code checks supplied values with
`isinstance`, and in Python `bool` is a subclass of `int`, so `True`
passes validation for a declared `int` parameter. -/
theorem C2_counterexample :
    validate_parameters [("n", c2IntSpec)] [("n", PyVal.bool true)] =
      .ok [("n", PyVal.bool true)] := rfl

/-- C2 (amended): for a declared parameter with a recognized type tag and
a supplied non-null value, validation accepts the value exactly when
Python's `isinstance` accepts it for the tag's native type — which is the
exact-type relation *except* that booleans are also instances of `int`
(`bool` subclasses `int`); an `int` is still never accepted where `float`
is declared.  On rejection it fails with `TypeMismatch` naming the
parameter, the declared tag and the actual runtime type. -/
theorem C2_isinstance_check (pname : String) (spec : ToolParameter)
    (v : PyVal) (ty : PyType)
    (hv : v.isNone = false) (ht : typeMap (strLower spec.type) = some ty) :
    isinst (PyVal.bool true) PyType.int = true
      ∧ (∀ n : Int, isinst (PyVal.int n) PyType.float = false)
      ∧ validate_parameters [(pname, spec)] [(pname, v)] =
          (if isinst v ty then .ok [(pname, v)]
           else .error (.typeMismatch pname spec.type (typeName v))) := by
  refine ⟨rfl, fun n => rfl, ?_⟩
  have hmem : dmem pname [(pname, v)] = true := by simp [dmem, dget]
  have hget : dget pname [(pname, v)] = some v := by simp [dget]
  by_cases hi : isinst v ty = true
  · simp [validate_parameters, unexpectedKeys, validateLoop, validateOne,
      hmem, hget, hv, ht, hi]
  · simp [validate_parameters, unexpectedKeys, validateLoop, validateOne,
      hmem, hget, hv, ht, hi]

/-- Witness for C2 (amended): a stringified number supplied for a declared
`int` parameter is rejected with a `TypeMismatch` reporting `int`
expected and `str` found. -/
theorem C2_isinstance_check_witness :
    validate_parameters [("x", ⟨"x", "int", "d", true, PyVal.none⟩)]
        [("x", PyVal.str "42")] =
      .error (.typeMismatch "x" "int" "str") := by
  have h := C2_isinstance_check "x" ⟨"x", "int", "d", true, PyVal.none⟩
    (PyVal.str "42") PyType.int rfl rfl
  exact h.2.2.trans rfl

/-! ### Claim C7 -/

/-- Parameters used to refute C7: a required `text : str` and an *optional*
`count : int` with (non-null) default `42`. -/
def c7Params : List (String × ToolParameter) :=
  [("text", ⟨"text", "str", "Input text", true, PyVal.none⟩),
   ("count", ⟨"count", "int", "Repeat count", false, PyVal.int 42⟩)]

/-- C7 counterexample.  The claim asserts that an *optional* declared
parameter absent from the supplied arguments has its default injected into
the normalized argument map.  In the code the injection branch only runs
for `required` parameters (`if param_spec.required and param_name not in
kwargs`), so an absent optional parameter is left out of the normalized
map entirely. -/
theorem C7_counterexample :
    validate_parameters c7Params [("text", PyVal.str "hi")] =
        .ok [("text", PyVal.str "hi")]
      ∧ dmem "count" [("text", PyVal.str "hi")] = false := ⟨rfl, rfl⟩

/-- C7 (amended): default injection happens in exactly two cases, and
only for a non-empty supplied argument map reaching the per-parameter loop:
a *required* parameter with a non-null default that is absent from the
arguments has its default injected (and the injected default is then
type-checked like a supplied value), and an *optional* parameter supplied
as `None` is replaced by its declared default (skipping the type check).
An absent optional parameter is left unfilled. -/
theorem C7_default_injection (pname : String) (spec : ToolParameter) (kwargs : Dict) :
    (spec.required = true → dmem pname kwargs = false → spec.default.isNone = false →
       ∀ ty, typeMap (strLower spec.type) = some ty → isinst spec.default ty = true →
         validateOne pname spec kwargs = .ok (dset pname spec.default kwargs))
    ∧ (spec.required = false → dmem pname kwargs = false →
         validateOne pname spec kwargs = .ok kwargs)
    ∧ (∀ v, spec.required = false → dget pname kwargs = some v → v.isNone = true →
         validateOne pname spec kwargs = .ok (dset pname spec.default kwargs)) := by
  refine ⟨?_, ?_, ?_⟩
  · intro hreq habs hdef ty hty hinst
    unfold validateOne
    rw [hreq, habs, hdef]
    simp [dget_dset_self, hdef, hty, hinst]
  · intro hreq habs
    unfold validateOne
    rw [hreq]
    simp [dget_eq_none_of_not_dmem pname kwargs habs]
  · intro v hreq hget hnone
    unfold validateOne
    rw [hreq]
    simp [hget, hnone]

/-- Witness for C7 (amended): a required `count : int` with default `42`,
absent from the (non-empty) arguments, is injected into the normalized
map; its injected value is the declared default. -/
theorem C7_default_injection_witness :
    validateOne "count" ⟨"count", "int", "Repeat count", true, PyVal.int 42⟩
        [("text", PyVal.str "hi")] =
      .ok [("text", PyVal.str "hi"), ("count", PyVal.int 42)] := by
  have h := (C7_default_injection "count"
    ⟨"count", "int", "Repeat count", true, PyVal.int 42⟩
    [("text", PyVal.str "hi")]).1 rfl rfl rfl PyType.int rfl rfl
  exact h.trans rfl

/-! ### The two-tier context store (`ToolContext`) -/

/-- The state of one `ToolContext`: the tool-private `_internal_context`
dictionary and the current contents of the `_shared_context` dictionary it
references. -/
structure ToolContext where
  internal : Dict
  shared : Dict

/-- Lookup `ToolContext.get`: the internal (private) tier is checked first, then
the shared tier, else the supplied default. -/
def ToolContext.get (c : ToolContext) (k : String) (default : PyVal) : PyVal :=
  if dmem k c.internal then (dget k c.internal).getD default
  else (dget k c.shared).getD default

/-- Update `ToolContext.set`: `force_shared` writes the shared tier; otherwise a key
already in the shared tier is updated there, else a key already in the
internal tier is updated there, else the key is created in the internal
tier. -/
def ToolContext.set (c : ToolContext) (k : String) (v : PyVal) (forceShared : Bool) :
    ToolContext :=
  if forceShared then { c with shared := dset k v c.shared }
  else if dmem k c.shared then { c with shared := dset k v c.shared }
  else if dmem k c.internal then { c with internal := dset k v c.internal }
  else { c with internal := dset k v c.internal }

/-! ### Claim C3 -/

/-- C3 counterexample.  The claim asserts that after `set(k, v,
forceShared)` a `get(k)` always returns `v`.  Starting from an empty
context, `set("k", 1)` creates the key in the private tier; a subsequent
`set("k", 2, forceShared=True)` writes the shared tier, but `get` checks
the private tier first and still returns `1`, not the just-written `2`. -/
theorem C3_counterexample :
    ((((ToolContext.mk [] []).set "k" (PyVal.int 1) false).set
        "k" (PyVal.int 2) true).get "k" PyVal.none = PyVal.int 1)
      ∧ ¬ ((((ToolContext.mk [] []).set "k" (PyVal.int 1) false).set
        "k" (PyVal.int 2) true).get "k" PyVal.none = PyVal.int 2) := by
  refine ⟨rfl, fun h => ?_⟩
  rw [show (((ToolContext.mk [] []).set "k" (PyVal.int 1) false).set
      "k" (PyVal.int 2) true).get "k" PyVal.none = PyVal.int 1 from rfl] at h
  exact absurd (PyVal.int.inj h) (by decide)

/-- C3 (amended): the tier placement of `set` holds exactly as claimed —
the write lands in the shared tier precisely when `forceShared` is true or
the key already exists in the shared tier, and otherwise updates-or-creates
the key in the private tier — and `get(k)` immediately after `set(k, v,
forceShared)` returns `v` *provided* the write did not land in the shared
tier while `k` was simultaneously present in the private tier (reads give
the private tier precedence, so such a key shadows the shared write). -/
theorem C3_set_get (c : ToolContext) (k : String) (v d : PyVal) (fs : Bool) :
    ((fs = true ∨ dmem k c.shared = true) →
       c.set k v fs = { c with shared := dset k v c.shared })
    ∧ ((fs = false ∧ dmem k c.shared = false) →
       c.set k v fs = { c with internal := dset k v c.internal })
    ∧ (¬ (dmem k c.internal = true ∧ (fs = true ∨ dmem k c.shared = true)) →
       (c.set k v fs).get k d = v) := by
  refine ⟨?_, ?_, ?_⟩
  · rintro (hfs | hsh)
    · simp [ToolContext.set, hfs]
    · cases fs <;> simp [ToolContext.set, hsh]
  · rintro ⟨hfs, hsh⟩
    by_cases hin : dmem k c.internal = true <;>
      simp [ToolContext.set, hfs, hsh, hin]
  · intro hno
    by_cases hland : fs = true ∨ dmem k c.shared = true
    · have hin : dmem k c.internal = false := by
        cases hi : dmem k c.internal with
        | false => rfl
        | true => exact absurd ⟨hi, hland⟩ hno
      rcases hland with hfs | hsh
      · simp [ToolContext.set, hfs, ToolContext.get, hin, dget_dset_self]
      · cases fs <;>
          simp [ToolContext.set, hsh, ToolContext.get, hin, dget_dset_self]
    · push_neg at hland
      obtain ⟨hfs, hsh⟩ := hland
      have hfs' : fs = false := by
        cases fs
        · rfl
        · exact absurd rfl hfs
      have hsh' : dmem k c.shared = false := by
        cases hs : dmem k c.shared
        · rfl
        · exact absurd hs hsh
      by_cases hin : dmem k c.internal = true <;>
        simp [ToolContext.set, hfs', hsh', hin, ToolContext.get,
          dmem_dset_self, dget_dset_self]

/-- Witness for C3 (amended): on an initially empty context, `set("k", 5)`
followed by `get("k")` returns `5` (the write lands in the private tier). -/
theorem C3_set_get_witness :
    ((ToolContext.mk [] []).set "k" (PyVal.int 5) false).get "k" PyVal.none =
      PyVal.int 5 :=
  (C3_set_get (ToolContext.mk [] []) "k" (PyVal.int 5) PyVal.none false).2.2
    (by simp [dmem, dget])

/-! ### Toolboxes: shared-tier aliasing across member tools

`BaseToolbox.__init__` stores `self.context` (one Python dict object) and
`_inject_context_to_tools` assigns `tool.context._shared_context = self.context`
for every member tool, so all members alias the *same* shared dict.  The
aliasing is modelled with a small heap: shared dicts live in `SharedHeap`
and each tool's context holds the index of the shared dict it references. -/

/-- The heap of shared context dicts; an index into `maps` is a reference to
one shared dict. -/
structure SharedHeap where
  maps : List Dict

/-- A member tool's context state: its private `_internal_context` plus the
reference (heap index) of the `_shared_context` dict it points at. -/
structure ToolRef where
  internal : Dict
  sharedRef : Nat

/-- Dereference a shared-dict reference. -/
def readShared (w : SharedHeap) (r : Nat) : Dict :=
  (w.maps.get? r).getD []

/-- Overwrite the shared dict a reference points at. -/
def writeShared (w : SharedHeap) (r : Nat) (m : Dict) : SharedHeap :=
  ⟨w.maps.set r m⟩

/-- The `ToolContext` view of a tool in a given heap. -/
def toolView (w : SharedHeap) (t : ToolRef) : ToolContext :=
  ⟨t.internal, readShared w t.sharedRef⟩

/-- Read `tool.context.get(k, d)` of a member tool. -/
def toolGet (w : SharedHeap) (t : ToolRef) (k : String) (d : PyVal) : PyVal :=
  (toolView w t).get k d

/-- Write `tool.context.set(k, v, force_shared)` of a member tool: apply the
two-tier `set` to the tool's view and write the (possibly updated) shared
dict back through the tool's reference. -/
def toolSet (w : SharedHeap) (t : ToolRef) (k : String) (v : PyVal) (fs : Bool) :
    SharedHeap × ToolRef :=
  let c := (toolView w t).set k v fs
  (writeShared w t.sharedRef c.shared, { t with internal := c.internal })

/-- Model of `BaseToolbox.__init__` plus `_inject_context_to_tools`: allocate the
toolbox's own shared dict (initially `ctx`) as a fresh heap cell and rebind
every member tool's shared-tier reference to it.  Returns the new heap, the
toolbox's shared-dict reference, and the rebound member tools. -/
def attachToolbox (w : SharedHeap) (tools : List ToolRef) (ctx : Dict) :
    SharedHeap × Nat × List ToolRef :=
  (⟨w.maps ++ [ctx]⟩, w.maps.length,
   tools.map (fun t => { t with sharedRef := w.maps.length }))

theorem readShared_writeShared_self (w : SharedHeap) (r : Nat) (m : Dict)
    (h : r < w.maps.length) :
    readShared (writeShared w r m) r = m := by
  simp [readShared, writeShared, List.getElem?_set_eq_of_lt _ h]

theorem readShared_writeShared_ne (w : SharedHeap) (r r2 : Nat) (m : Dict)
    (h : r ≠ r2) :
    readShared (writeShared w r m) r2 = readShared w r2 := by
  simp [readShared, writeShared, List.getElem?_set_ne h]

theorem writeShared_same (w : SharedHeap) (r : Nat) (h : r < w.maps.length) :
    writeShared w r (readShared w r) = w := by
  unfold writeShared readShared
  congr 1
  apply List.ext_getElem?
  intro n
  by_cases hn : r = n
  · subst hn
    simp [List.getElem?_set_eq_of_lt _ h, List.getElem?_eq_getElem h]
  · simp [List.getElem?_set_ne hn]

/-! ### Claim C4 -/

/-- C4 counterexample.  The claim asserts that a shared-tier write by a
member tool is observable via `get` by *every* sibling tool of the same
toolbox.  A sibling whose private tier already contains the key shadows
the shared tier on reads: after attaching tools `A` (empty) and `B`
(private `{"count": 99}`) to a toolbox and `A` writing `count = 1` with
`forceShared`, `B.get("count")` still returns its private `99`. -/
theorem C4_counterexample :
    attachToolbox ⟨[]⟩ [⟨[], 0⟩, ⟨[("count", PyVal.int 99)], 0⟩] [] =
        (⟨[[]]⟩, 0, [⟨[], 0⟩, ⟨[("count", PyVal.int 99)], 0⟩])
      ∧ toolGet (toolSet ⟨[[]]⟩ ⟨[], 0⟩ "count" (PyVal.int 1) true).1
          ⟨[("count", PyVal.int 99)], 0⟩ "count" PyVal.none = PyVal.int 99
      ∧ ¬ (toolGet (toolSet ⟨[[]]⟩ ⟨[], 0⟩ "count" (PyVal.int 1) true).1
          ⟨[("count", PyVal.int 99)], 0⟩ "count" PyVal.none = PyVal.int 1) := by
  refine ⟨rfl, rfl, fun h => ?_⟩
  rw [show toolGet (toolSet ⟨[[]]⟩ ⟨[], 0⟩ "count" (PyVal.int 1) true).1
      ⟨[("count", PyVal.int 99)], 0⟩ "count" PyVal.none = PyVal.int 99 from rfl] at h
  exact absurd (PyVal.int.inj h) (by decide)

/-- C4 (amended): after toolbox construction every member tool's
shared-tier reference is the toolbox's own shared dict, and a shared-tier
write by a member is immediately observable via `get` by every sibling
tool that does not shadow the key in its own private tier; a member's
private-tier write leaves the heap of shared dicts unchanged (so it is
invisible to every other tool), writes through the toolbox's shared dict
never change reads through any other shared dict, and the member tools of
any later-constructed toolbox reference a strictly newer shared dict, so
they never observe the write. -/
theorem C4_toolbox_sharing (w : SharedHeap) (tools : List ToolRef) (ctx : Dict)
    (w1 : SharedHeap) (sid : Nat) (tools1 : List ToolRef)
    (hattach : attachToolbox w tools ctx = (w1, sid, tools1)) :
    (∀ t ∈ tools1, t.sharedRef = sid)
    ∧ (∀ a b, a.sharedRef = sid → b.sharedRef = sid → ∀ k v d,
        dmem k b.internal = false →
        toolGet (toolSet w1 a k v true).1 b k d = v)
    ∧ (∀ a k v, dmem k (readShared w1 a.sharedRef) = false →
        a.sharedRef < w1.maps.length →
        (toolSet w1 a k v false).1 = w1)
    ∧ (∀ a k v fs c k2 d2, a.sharedRef = sid → c.sharedRef ≠ sid →
        toolGet (toolSet w1 a k v fs).1 c k2 d2 = toolGet w1 c k2 d2)
    ∧ (∀ w2 tl2 c2 w3 sid2 tools2,
        attachToolbox w2 tl2 c2 = (w3, sid2, tools2) →
        w1.maps.length ≤ w2.maps.length →
        ∀ t2 ∈ tools2, t2.sharedRef ≠ sid) := by
  simp only [attachToolbox, Prod.mk.injEq] at hattach
  obtain ⟨hw1, hsid, htools⟩ := hattach
  subst hw1; subst hsid; subst htools
  have hlt : w.maps.length < (SharedHeap.mk (w.maps ++ [ctx])).maps.length := by
    simp
  refine ⟨?_, ?_, ?_, ?_, ?_⟩
  · intro t ht
    obtain ⟨t0, _, rfl⟩ := List.mem_map.mp ht
    rfl
  · intro a b ha hb k v d hnb
    unfold toolSet toolView ToolContext.set
    simp only [ha]
    unfold toolGet toolView ToolContext.get
    simp only [hb, hnb, Bool.false_eq_true, if_false]
    rw [readShared_writeShared_self _ _ _ (by simp)]
    simp [dget_dset_self]
  · intro a k v hsh hr
    unfold toolSet toolView ToolContext.set
    simp only [hsh, Bool.false_eq_true, if_false]
    by_cases hin : dmem k a.internal = true <;>
      simp [hin, writeShared_same _ _ hr]
  · intro a k v fs c k2 d2 ha hc
    have hne : a.sharedRef ≠ c.sharedRef := by
      rw [ha]
      intro hh
      exact hc hh.symm
    simp only [toolGet, toolSet, toolView]
    rw [readShared_writeShared_ne _ _ _ _ hne]
  · intro w2 tl2 c2 w3 sid2 tools2 hat2 hle t2 ht2
    simp only [attachToolbox, Prod.mk.injEq] at hat2
    obtain ⟨hw3, hsid2, htools2⟩ := hat2
    subst hsid2; subst htools2
    obtain ⟨t0, _, rfl⟩ := List.mem_map.mp ht2
    have : w.maps.length < w2.maps.length + 1 := by
      have := hlt
      simp at this
      omega
    simp only []
    omega

/-- Witness for C4 (amended), at the spec's concrete scenario: toolbox with
fresh tools `A` and `B` sharing context; `A` calls
`context.set("count", 1, forceShared=True)`; `B.get("count")` returns `1`. -/
theorem C4_toolbox_sharing_witness :
    toolGet (toolSet ⟨[[]]⟩ ⟨[], 0⟩ "count" (PyVal.int 1) true).1
        ⟨[], 0⟩ "count" PyVal.none = PyVal.int 1 :=
  (C4_toolbox_sharing ⟨[]⟩ [⟨[], 0⟩, ⟨[], 0⟩] [] ⟨[[]]⟩ 0
      [⟨[], 0⟩, ⟨[], 0⟩] rfl).2.1
    ⟨[], 0⟩ ⟨[], 0⟩ rfl rfl "count" (PyVal.int 1) PyVal.none rfl

/-! ### Lifecycle events, hooks, and the invocation interceptor

`BaseTool.__getattribute__` intercepts `invoke`/`ainvoke` and wraps them:
the synchronous wrapper fires `invoke:before` callbacks, validates, runs
the underlying logic, fires `invoke:after`, and on any exception inside its
`try` block fires the `error` callbacks and re-raises; the asynchronous
wrapper does the same with the *contained* dispatcher
`_trigger_event_async`.  A hook callback is modelled by an identifier
together with its behaviour: `err = none` means it returns normally,
`err = some e` means invoking it raises `e`.  Executions are recorded as
traces of events. -/

/-- Exceptions flowing through an invocation: a validation failure raised
by `_validate_parameters`, or an arbitrary exception (from a hook callback
or from the underlying tool logic), identified by a tag. -/
inductive PyErr where
  | validation (e : VErr)
  | user (n : Nat)
deriving DecidableEq, Repr

/-- The lifecycle event kinds (`ToolEvent`). -/
inductive EvKind where
  | beforeInvoke | afterInvoke | beforeAInvoke | afterAInvoke | error
deriving DecidableEq, Repr

/-- What a callback is called with, beyond the tool and the arguments:
nothing extra (before-events), the result (after-events), or the error
being reported (error-events). -/
inductive CbPayload where
  | unit
  | result (r : PyVal)
  | failure (e : PyErr)

/-- A registered hook callback: its identity and its behaviour when
invoked (`none` = returns normally, `some e` = raises `e`). -/
structure Cb where
  id : Nat
  err : Option PyErr
deriving DecidableEq, Repr

/-- Events recorded during an invocation:

* `cbRun k i p` — the callback with id `i` registered for event `k` was
  invoked with payload `p` (it may then have returned or raised);
* `contained k i e` — that callback's exception `e` was caught and logged
  by the suspending dispatcher;
* `secondary src e` — the suspending dispatcher started a secondary
  `Error` dispatch for exception `e`, carrying the original event kind
  `src` as context (`source_event`);
* `validated` — `_validate_parameters` completed successfully;
* `ranLogic` — the underlying tool logic was entered;
* `warned` — the default `ainvoke` logged its no-async-implementation
  warning. -/
inductive Ev where
  | cbRun (k : EvKind) (i : Nat) (p : CbPayload)
  | contained (k : EvKind) (i : Nat) (e : PyErr)
  | secondary (src : EvKind) (e : PyErr)
  | validated
  | ranLogic
  | warned

/-- A trace of invocation events. -/
abbrev Trace := List Ev

/-- The per-instance hook registry (`_hooks`): the ordered callback list
for each of the five events. -/
structure HookReg where
  beforeInvoke : List Cb
  afterInvoke : List Cb
  beforeAInvoke : List Cb
  afterAInvoke : List Cb
  error : List Cb

/-- The hook registry a freshly constructed tool owns.  The source declares
`_hooks: Dict[ToolEvent, List[Callable]] = defaultdict(list)` on the
pydantic `BaseModel` subclass; pydantic v2 turns a leading-underscore
attribute into a private attribute whose default is deep-copied per
instance (`ModelPrivateAttr.get_default` applies `smart_deepcopy` to the
empty defaultdict), so every instance starts with its own fresh empty
registry rather than sharing the class-level object. -/
def mkToolHooks : HookReg := ⟨[], [], [], [], []⟩

/-- Registration `BaseTool.on`: append the callback to this instance's ordered list for
the event. -/
def onEvent (h : HookReg) (k : EvKind) (c : Cb) : HookReg :=
  match k with
  | .beforeInvoke => { h with beforeInvoke := h.beforeInvoke ++ [c] }
  | .afterInvoke => { h with afterInvoke := h.afterInvoke ++ [c] }
  | .beforeAInvoke => { h with beforeAInvoke := h.beforeAInvoke ++ [c] }
  | .afterAInvoke => { h with afterAInvoke := h.afterAInvoke ++ [c] }
  | .error => { h with error := h.error ++ [c] }

/-- Synchronous (uncontained) firing of a callback list, in registration
order: each callback is invoked; a raising callback aborts the loop and
its exception propagates (second component). -/
def fireSyncCbs (k : EvKind) (p : CbPayload) : List Cb → Trace × Option PyErr
  | [] => ([], Option.none)
  | c :: rest =>
    match c.err with
    | Option.some e => ([.cbRun k c.id p], some e)
    | Option.none =>
      let x := fireSyncCbs k p rest
      (.cbRun k c.id p :: x.1, x.2)

/-- Model of `_trigger_event_async` dispatching the `Error` event itself: every
callback is awaited in registration order; a raising callback's exception
is caught and logged, and — the event being dispatched already being
`Error` — no further dispatch is attempted. -/
def dispatchErrorEvent (p : CbPayload) : List Cb → Trace
  | [] => []
  | c :: rest =>
    match c.err with
    | Option.none => .cbRun .error c.id p :: dispatchErrorEvent p rest
    | Option.some e =>
      .cbRun .error c.id p :: .contained .error c.id e :: dispatchErrorEvent p rest

/-- Model of `_trigger_event_async` for event `k` with the tool's `error` hook list
`errCbs`: callbacks are awaited strictly in registration order; a raising
callback's exception is caught and logged, and — if `k` is not already
`Error` — a secondary `Error` dispatch is run before continuing with the
remaining callbacks.  The source realizes the secondary dispatch as a
recursive call with `event = ERROR`; since that call's own guard
(`if event != ToolEvent.ERROR`) can never fire again, the recursion is
one level deep and is written here as `dispatchErrorEvent`
(`dispatchEvent_error_eq` below proves the unrolling faithful). -/
def dispatchEvent (errCbs : List Cb) (k : EvKind) (p : CbPayload) : List Cb → Trace
  | [] => []
  | c :: rest =>
    match c.err with
    | Option.none => .cbRun k c.id p :: dispatchEvent errCbs k p rest
    | Option.some e =>
      .cbRun k c.id p :: .contained k c.id e ::
        ((if k = .error then [] else .secondary k e :: dispatchErrorEvent (.failure e) errCbs)
          ++ dispatchEvent errCbs k p rest)

theorem dispatchEvent_error_eq (errCbs : List Cb) (p : CbPayload) (cbs : List Cb) :
    dispatchEvent errCbs .error p cbs = dispatchErrorEvent p cbs := by
  induction cbs with
  | nil => rfl
  | cons c rest ih =>
    cases hc : c.err <;> simp [dispatchEvent, dispatchErrorEvent, hc, ih]

/-- The model of one tool instance as the interceptor sees it: declared
parameters, its own hook registry, and the underlying synchronous `invoke`
logic (which may raise). -/
structure ToolM where
  params : List (String × ToolParameter)
  hooks : HookReg
  logic : Dict → Except PyErr PyVal

/-- Registration `BaseTool.on` at the tool level. -/
def registerHook (t : ToolM) (k : EvKind) (c : Cb) : ToolM :=
  { t with hooks := onEvent t.hooks k c }

/-- The synchronous invocation path (`wrapped` in `__getattribute__`):
fire `invoke:before` callbacks (outside the `try`, so a raising callback
propagates without error hooks, validation or logic); then validate, run
the underlying logic, fire `invoke:after` with the result; any exception
inside the `try` (validation failure, logic failure, or an after-callback
raising) fires the `error` callbacks and is re-raised — with the fidelity
detail that an error callback raising replaces the propagating exception
(`er.2.getD`). -/
def runSyncInvoke (t : ToolM) (kwargs : Dict) : Trace × Except PyErr PyVal :=
  let b := fireSyncCbs .beforeInvoke .unit t.hooks.beforeInvoke
  match b.2 with
  | Option.some e => (b.1, .error e)
  | Option.none =>
    match validate_parameters t.params kwargs with
    | .error ve =>
      let er := fireSyncCbs .error (.failure (.validation ve)) t.hooks.error
      (b.1 ++ er.1, .error (er.2.getD (.validation ve)))
    | .ok kwargs1 =>
      match t.logic kwargs1 with
      | .error le =>
        let er := fireSyncCbs .error (.failure le) t.hooks.error
        (b.1 ++ Ev.validated :: Ev.ranLogic :: er.1, .error (er.2.getD le))
      | .ok res =>
        let a := fireSyncCbs .afterInvoke (.result res) t.hooks.afterInvoke
        match a.2 with
        | Option.some e =>
          let er := fireSyncCbs .error (.failure e) t.hooks.error
          (b.1 ++ Ev.validated :: Ev.ranLogic :: a.1 ++ er.1, .error (er.2.getD e))
        | Option.none => (b.1 ++ Ev.validated :: Ev.ranLogic :: a.1, .ok res)

/-- The asynchronous invocation path (`awrapped`) for a tool that does not
override `ainvoke`: fire `ainvoke:before` via the contained dispatcher;
validate (mutating `kwargs` in place, so the normalized arguments flow
onward); the default `BaseTool.ainvoke` then logs its warning and calls
`self.invoke(...)`, which is itself intercepted, so the full synchronous
path — including a second parameter validation — runs inside the
asynchronous one; on success fire `ainvoke:after` with the result, on
failure fire `error`, both contained; the outcome returned to the caller
is the invocation's own outcome, untouched by hook-callback failures. -/
def runAInvokeDefault (t : ToolM) (kwargs : Dict) : Trace × Except PyErr PyVal :=
  let bt := dispatchEvent t.hooks.error .beforeAInvoke .unit t.hooks.beforeAInvoke
  match validate_parameters t.params kwargs with
  | .error ve =>
    let et := dispatchEvent t.hooks.error .error (.failure (.validation ve)) t.hooks.error
    (bt ++ et, .error (.validation ve))
  | .ok kwargs1 =>
    let s := runSyncInvoke t kwargs1
    match s.2 with
    | .error e =>
      let et := dispatchEvent t.hooks.error .error (.failure e) t.hooks.error
      (bt ++ Ev.validated :: Ev.warned :: s.1 ++ et, .error e)
    | .ok res =>
      let aft := dispatchEvent t.hooks.error .afterAInvoke (.result res) t.hooks.afterAInvoke
      (bt ++ Ev.validated :: Ev.warned :: s.1 ++ aft, .ok res)

/-! ### Trace helpers and dispatch lemmas -/

/-- The trace of a callback list all of whose members return normally. -/
def cbRuns (k : EvKind) (p : CbPayload) (cbs : List Cb) : Trace :=
  cbs.map (fun c => Ev.cbRun k c.id p)

/-- Every callback in the list returns normally. -/
def allOk (cbs : List Cb) : Bool :=
  cbs.all (fun c => c.err.isNone)

def isSecondaryEv : Ev → Bool
  | .secondary _ _ => true
  | _ => false

def isValidatedEv : Ev → Bool
  | .validated => true
  | _ => false

def isCbRunEv : Ev → Bool
  | .cbRun _ _ _ => true
  | _ => false

/-- Number of secondary `Error` dispatches recorded in a trace. -/
def secondaryCount (tr : Trace) : Nat :=
  tr.countP isSecondaryEv

/-- Number of successful validation passes recorded in a trace. -/
def validatedCount (tr : Trace) : Nat :=
  tr.countP isValidatedEv

/-- Number of raising callbacks in a list. -/
def raisingCount (cbs : List Cb) : Nat :=
  cbs.countP (fun c => c.err.isSome)

theorem fireSyncCbs_allOk (k : EvKind) (p : CbPayload) (cbs : List Cb)
    (h : allOk cbs = true) :
    fireSyncCbs k p cbs = (cbRuns k p cbs, Option.none) := by
  induction cbs with
  | nil => rfl
  | cons c rest ih =>
    simp only [allOk, List.all_cons, Bool.and_eq_true] at h
    have hc : c.err = Option.none := Option.isNone_iff_eq_none.mp h.1
    simp [fireSyncCbs, hc, cbRuns, ih (by simpa [allOk] using h.2)]

theorem fireSyncCbs_split (k : EvKind) (p : CbPayload) (pre : List Cb) (i : Nat)
    (e : PyErr) (post : List Cb) (h : allOk pre = true) :
    fireSyncCbs k p (pre ++ ⟨i, some e⟩ :: post) =
      (cbRuns k p pre ++ [Ev.cbRun k i p], some e) := by
  induction pre with
  | nil => rfl
  | cons c rest ih =>
    simp only [allOk, List.all_cons, Bool.and_eq_true] at h
    have hc : c.err = Option.none := Option.isNone_iff_eq_none.mp h.1
    simp [fireSyncCbs, hc, cbRuns, ih (by simpa [allOk] using h.2)]

theorem dispatchEvent_allOk (errCbs : List Cb) (k : EvKind) (p : CbPayload)
    (cbs : List Cb) (h : allOk cbs = true) :
    dispatchEvent errCbs k p cbs = cbRuns k p cbs := by
  induction cbs with
  | nil => rfl
  | cons c rest ih =>
    simp only [allOk, List.all_cons, Bool.and_eq_true] at h
    have hc : c.err = Option.none := Option.isNone_iff_eq_none.mp h.1
    simp [dispatchEvent, hc, cbRuns, ih (by simpa [allOk] using h.2)]

theorem countP_cbRuns (f : Ev → Bool) (hk : ∀ k i p, f (Ev.cbRun k i p) = false)
    (k : EvKind) (p : CbPayload) (cbs : List Cb) :
    (cbRuns k p cbs).countP f = 0 := by
  induction cbs with
  | nil => rfl
  | cons c rest ih => simp [cbRuns, List.countP_cons, hk, ih]

theorem mem_cbRuns_kind (k k2 : EvKind) (i : Nat) (p p2 : CbPayload) (cbs : List Cb)
    (h : Ev.cbRun k2 i p2 ∈ cbRuns k p cbs) : k2 = k := by
  induction cbs with
  | nil => simp [cbRuns] at h
  | cons c rest ih =>
    simp only [cbRuns, List.map_cons, List.mem_cons] at h
    rcases h with h | h
    · exact (Ev.cbRun.inj h).1
    · exact ih h

/-! ### Scenario lemmas for the synchronous path -/

theorem runSyncInvoke_success (t : ToolM) (kwargs kwargs1 : Dict) (res : PyVal)
    (hb : allOk t.hooks.beforeInvoke = true) (ha : allOk t.hooks.afterInvoke = true)
    (hv : validate_parameters t.params kwargs = .ok kwargs1)
    (hl : t.logic kwargs1 = .ok res) :
    runSyncInvoke t kwargs =
      (cbRuns .beforeInvoke .unit t.hooks.beforeInvoke ++
         Ev.validated :: Ev.ranLogic ::
           cbRuns .afterInvoke (.result res) t.hooks.afterInvoke,
       .ok res) := by
  simp [runSyncInvoke, fireSyncCbs_allOk _ _ _ hb, fireSyncCbs_allOk _ _ _ ha, hv, hl]

theorem runSyncInvoke_validationError (t : ToolM) (kwargs : Dict) (ve : VErr)
    (hb : allOk t.hooks.beforeInvoke = true) (he : allOk t.hooks.error = true)
    (hv : validate_parameters t.params kwargs = .error ve) :
    runSyncInvoke t kwargs =
      (cbRuns .beforeInvoke .unit t.hooks.beforeInvoke ++
         cbRuns .error (.failure (.validation ve)) t.hooks.error,
       .error (.validation ve)) := by
  simp [runSyncInvoke, fireSyncCbs_allOk _ _ _ hb, fireSyncCbs_allOk _ _ _ he, hv]

theorem runSyncInvoke_logicError (t : ToolM) (kwargs kwargs1 : Dict) (le : PyErr)
    (hb : allOk t.hooks.beforeInvoke = true) (he : allOk t.hooks.error = true)
    (hv : validate_parameters t.params kwargs = .ok kwargs1)
    (hl : t.logic kwargs1 = .error le) :
    runSyncInvoke t kwargs =
      (cbRuns .beforeInvoke .unit t.hooks.beforeInvoke ++
         Ev.validated :: Ev.ranLogic :: cbRuns .error (.failure le) t.hooks.error,
       .error le) := by
  simp [runSyncInvoke, fireSyncCbs_allOk _ _ _ hb, fireSyncCbs_allOk _ _ _ he, hv, hl]

/-! ### Claim C5 -/

/-- C5**: on the synchronous path with well-behaved hook callbacks, all
`invoke:before` callbacks fire in registration order and complete before
validation; validation completes before the underlying logic runs; on
success every `invoke:after` callback fires exactly once with the result,
in registration order, and the result is returned; on a call failing in
validation or in the underlying logic the `error` callbacks fire and the
original exception is re-raised to the caller, and no `invoke:after`
callback fires.  (The traces are stated as exact equations, so ordering,
multiplicity and payloads are all pinned down.) -/
theorem C5_sync_hook_ordering (t : ToolM) (kwargs : Dict) :
    (∀ kwargs1 res,
       allOk t.hooks.beforeInvoke = true → allOk t.hooks.afterInvoke = true →
       validate_parameters t.params kwargs = .ok kwargs1 →
       t.logic kwargs1 = .ok res →
       runSyncInvoke t kwargs =
         (cbRuns .beforeInvoke .unit t.hooks.beforeInvoke ++
            Ev.validated :: Ev.ranLogic ::
              cbRuns .afterInvoke (.result res) t.hooks.afterInvoke,
          .ok res))
    ∧ (∀ ve,
       allOk t.hooks.beforeInvoke = true → allOk t.hooks.error = true →
       validate_parameters t.params kwargs = .error ve →
       runSyncInvoke t kwargs =
         (cbRuns .beforeInvoke .unit t.hooks.beforeInvoke ++
            cbRuns .error (.failure (.validation ve)) t.hooks.error,
          .error (.validation ve))
       ∧ ∀ i p, Ev.cbRun .afterInvoke i p ∉ (runSyncInvoke t kwargs).1)
    ∧ (∀ kwargs1 le,
       allOk t.hooks.beforeInvoke = true → allOk t.hooks.error = true →
       validate_parameters t.params kwargs = .ok kwargs1 →
       t.logic kwargs1 = .error le →
       runSyncInvoke t kwargs =
         (cbRuns .beforeInvoke .unit t.hooks.beforeInvoke ++
            Ev.validated :: Ev.ranLogic :: cbRuns .error (.failure le) t.hooks.error,
          .error le)
       ∧ ∀ i p, Ev.cbRun .afterInvoke i p ∉ (runSyncInvoke t kwargs).1) := by
  refine ⟨?_, ?_, ?_⟩
  · intro kwargs1 res hb ha hv hl
    exact runSyncInvoke_success t kwargs kwargs1 res hb ha hv hl
  · intro ve hb he hv
    have heq := runSyncInvoke_validationError t kwargs ve hb he hv
    refine ⟨heq, ?_⟩
    intro i p hmem
    rw [heq] at hmem
    simp only [List.mem_append] at hmem
    rcases hmem with h | h
    · exact absurd (mem_cbRuns_kind _ _ _ _ _ _ h) (by decide)
    · exact absurd (mem_cbRuns_kind _ _ _ _ _ _ h) (by decide)
  · intro kwargs1 le hb he hv hl
    have heq := runSyncInvoke_logicError t kwargs kwargs1 le hb he hv hl
    refine ⟨heq, ?_⟩
    intro i p hmem
    rw [heq] at hmem
    simp only [List.mem_append, List.mem_cons] at hmem
    rcases hmem with h | h | h | h
    · exact absurd (mem_cbRuns_kind _ _ _ _ _ _ h) (by decide)
    · exact Ev.noConfusion h
    · exact Ev.noConfusion h
    · exact absurd (mem_cbRuns_kind _ _ _ _ _ _ h) (by decide)

/-- Witness for C5: a concrete tool with two before-hooks, one after-hook
and one error-hook, invoked successfully; the trace and outcome are exactly
as C5 states. -/
theorem C5_sync_hook_ordering_witness :
    runSyncInvoke
        ⟨simpleParams,
         ⟨[⟨0, Option.none⟩, ⟨1, Option.none⟩], [⟨2, Option.none⟩], [], [],
          [⟨3, Option.none⟩]⟩,
         fun _ => .ok (PyVal.str "ok")⟩
        [("text", PyVal.str "hi")] =
      ([Ev.cbRun .beforeInvoke 0 .unit, Ev.cbRun .beforeInvoke 1 .unit,
        Ev.validated, Ev.ranLogic,
        Ev.cbRun .afterInvoke 2 (.result (PyVal.str "ok"))],
       .ok (PyVal.str "ok")) := by
  have h := (C5_sync_hook_ordering
      ⟨simpleParams,
       ⟨[⟨0, Option.none⟩, ⟨1, Option.none⟩], [⟨2, Option.none⟩], [], [],
        [⟨3, Option.none⟩]⟩,
       fun _ => .ok (PyVal.str "ok")⟩
      [("text", PyVal.str "hi")]).1
    [("text", PyVal.str "hi")] (PyVal.str "ok") rfl rfl rfl rfl
  exact h.trans rfl

/-! ### Claim C9 -/

/-- C9**: for a tool that does not override the default `ainvoke`, a
successful awaited call (with well-behaved hooks) fires the hook families in
the order `ainvoke:before`, `invoke:before`, `invoke:after`,
`ainvoke:after` — each list in registration order — and parameter
validation runs exactly twice: once on the asynchronous path and once more
when the default fallback re-enters the intercepted synchronous `invoke`. -/
theorem C9_ainvoke_double_validation (t : ToolM) (kwargs kwargs1 kwargs2 : Dict)
    (res : PyVal)
    (hba : allOk t.hooks.beforeAInvoke = true) (haa : allOk t.hooks.afterAInvoke = true)
    (hb : allOk t.hooks.beforeInvoke = true) (ha : allOk t.hooks.afterInvoke = true)
    (hv1 : validate_parameters t.params kwargs = .ok kwargs1)
    (hv2 : validate_parameters t.params kwargs1 = .ok kwargs2)
    (hl : t.logic kwargs2 = .ok res) :
    runAInvokeDefault t kwargs =
      (cbRuns .beforeAInvoke .unit t.hooks.beforeAInvoke ++
         Ev.validated :: Ev.warned ::
           ((cbRuns .beforeInvoke .unit t.hooks.beforeInvoke ++
               Ev.validated :: Ev.ranLogic ::
                 cbRuns .afterInvoke (.result res) t.hooks.afterInvoke) ++
             cbRuns .afterAInvoke (.result res) t.hooks.afterAInvoke),
       .ok res)
    ∧ validatedCount (runAInvokeDefault t kwargs).1 = 2 := by
  have hs := runSyncInvoke_success t kwargs1 kwargs2 res hb ha hv2 hl
  have heq : runAInvokeDefault t kwargs =
      (cbRuns .beforeAInvoke .unit t.hooks.beforeAInvoke ++
         Ev.validated :: Ev.warned ::
           ((cbRuns .beforeInvoke .unit t.hooks.beforeInvoke ++
               Ev.validated :: Ev.ranLogic ::
                 cbRuns .afterInvoke (.result res) t.hooks.afterInvoke) ++
             cbRuns .afterAInvoke (.result res) t.hooks.afterAInvoke),
       .ok res) := by
    simp [runAInvokeDefault, hv1, hs, dispatchEvent_allOk _ _ _ _ hba,
      dispatchEvent_allOk _ _ _ _ haa]
  refine ⟨heq, ?_⟩
  rw [heq]
  simp [validatedCount, List.countP_append, List.countP_cons, isValidatedEv,
    countP_cbRuns isValidatedEv (fun _ _ _ => rfl)]

/-- Witness for C9: a concrete tool with one hook per family, awaited with
valid arguments, produces exactly the claimed interleaving with two
validation passes. -/
theorem C9_ainvoke_double_validation_witness :
    runAInvokeDefault
        ⟨simpleParams,
         ⟨[⟨12, Option.none⟩], [⟨13, Option.none⟩], [⟨10, Option.none⟩],
          [⟨11, Option.none⟩], []⟩,
         fun _ => .ok (PyVal.int 7)⟩
        [("text", PyVal.str "hi")] =
      ([Ev.cbRun .beforeAInvoke 10 .unit, Ev.validated, Ev.warned,
        Ev.cbRun .beforeInvoke 12 .unit, Ev.validated, Ev.ranLogic,
        Ev.cbRun .afterInvoke 13 (.result (PyVal.int 7)),
        Ev.cbRun .afterAInvoke 11 (.result (PyVal.int 7))],
       .ok (PyVal.int 7)) := by
  have h := (C9_ainvoke_double_validation
      ⟨simpleParams,
       ⟨[⟨12, Option.none⟩], [⟨13, Option.none⟩], [⟨10, Option.none⟩],
        [⟨11, Option.none⟩], []⟩,
       fun _ => .ok (PyVal.int 7)⟩
      [("text", PyVal.str "hi")] [("text", PyVal.str "hi")]
      [("text", PyVal.str "hi")] (PyVal.int 7)
      rfl rfl rfl rfl rfl rfl rfl).1
  exact h.trans rfl

/-! ### Claim C10 -/

/-- C10**: in the synchronous call path, if an `invoke:after` callback
raises after the underlying logic has already succeeded, the `error`
callbacks fire with that callback's exception and the exception propagates
to the caller — the successfully computed result is never returned; by
contrast, an `invoke:before` callback's exception propagates directly to
the caller without firing the `error` callbacks and without validation or
the underlying logic running (the exact trace shows only the preceding
before-callbacks). -/
theorem C10_hook_exception_paths (t : ToolM) (kwargs : Dict) :
    (∀ kwargs1 res pre j e post,
       allOk t.hooks.beforeInvoke = true → allOk t.hooks.error = true →
       validate_parameters t.params kwargs = .ok kwargs1 →
       t.logic kwargs1 = .ok res →
       t.hooks.afterInvoke = pre ++ ⟨j, some e⟩ :: post →
       allOk pre = true →
       runSyncInvoke t kwargs =
         (cbRuns .beforeInvoke .unit t.hooks.beforeInvoke ++
            Ev.validated :: Ev.ranLogic ::
              (cbRuns .afterInvoke (.result res) pre ++
                 Ev.cbRun .afterInvoke j (.result res) ::
                   cbRuns .error (.failure e) t.hooks.error),
          .error e))
    ∧ (∀ pre i e post,
       t.hooks.beforeInvoke = pre ++ ⟨i, some e⟩ :: post →
       allOk pre = true →
       runSyncInvoke t kwargs =
         (cbRuns .beforeInvoke .unit pre ++ [Ev.cbRun .beforeInvoke i .unit],
          .error e)) := by
  constructor
  · intro kwargs1 res pre j e post hb he hv hl hafter hpre
    have hsplit := fireSyncCbs_split .afterInvoke (.result res) pre j e post hpre
    simp [runSyncInvoke, fireSyncCbs_allOk _ _ _ hb, hv, hl, hafter, hsplit,
      fireSyncCbs_allOk _ _ _ he]
  · intro pre i e post hbefore hpre
    have hsplit := fireSyncCbs_split .beforeInvoke .unit pre i e post hpre
    simp [runSyncInvoke, hbefore, hsplit]

/-- Witness for C10: a concrete tool whose single after-hook raises; the
call fails with that exception after the error hook fired, and the computed
result is not returned. -/
theorem C10_hook_exception_paths_witness :
    runSyncInvoke
        ⟨simpleParams,
         ⟨[⟨0, Option.none⟩], [⟨1, some (.user 5)⟩], [], [], [⟨9, Option.none⟩]⟩,
         fun _ => .ok (PyVal.int 3)⟩
        [("text", PyVal.str "hi")] =
      ([Ev.cbRun .beforeInvoke 0 .unit, Ev.validated, Ev.ranLogic,
        Ev.cbRun .afterInvoke 1 (.result (PyVal.int 3)),
        Ev.cbRun .error 9 (.failure (.user 5))],
       .error (.user 5)) := by
  have h := (C10_hook_exception_paths
      ⟨simpleParams,
       ⟨[⟨0, Option.none⟩], [⟨1, some (.user 5)⟩], [], [], [⟨9, Option.none⟩]⟩,
       fun _ => .ok (PyVal.int 3)⟩
      [("text", PyVal.str "hi")]).1
    [("text", PyVal.str "hi")] (PyVal.int 3) [] 1 (.user 5) []
    rfl rfl rfl rfl rfl rfl
  exact h.trans rfl

/-! ### Claim C8 -/

/-- C8**: every tool instance owns its own hook registry, created empty at
construction (pydantic v2 deep-copies the class-level `defaultdict` default
per instance — see `mkToolHooks`).  Consequently an instance whose registry
is the freshly constructed one fires no callback at all when invoked — in
particular no callback registered on *another* instance — while registering
a callback on an instance makes it fire on that same instance. -/
theorem C8_per_instance_registry (t2 : ToolM) (kwargs : Dict)
    (h2 : t2.hooks = mkToolHooks) :
    (∀ k i p, Ev.cbRun k i p ∉ (runSyncInvoke t2 kwargs).1)
    ∧ (∀ (t1 : ToolM) (c : Cb) (kwargs1 : Dict) (res : PyVal),
        t1.hooks = mkToolHooks → c.err = Option.none →
        validate_parameters t1.params kwargs = .ok kwargs1 →
        t1.logic kwargs1 = .ok res →
        runSyncInvoke (registerHook t1 .beforeInvoke c) kwargs =
          ([Ev.cbRun .beforeInvoke c.id .unit, Ev.validated, Ev.ranLogic],
           .ok res)) := by
  constructor
  · intro k i p hmem
    simp only [runSyncInvoke] at hmem
    rw [h2] at hmem
    simp only [mkToolHooks, fireSyncCbs] at hmem
    split at hmem
    · simp [fireSyncCbs] at hmem
    · split at hmem
      · simp [fireSyncCbs] at hmem
      · simp [fireSyncCbs] at hmem
  · intro t1 c kwargs1 res h1 hc hv hl
    simp [runSyncInvoke, registerHook, onEvent, h1, mkToolHooks, fireSyncCbs,
      hc, hv, hl]

/-- Witness for C8: a freshly constructed instance fires nothing (in
particular not the callback with id 7 registered elsewhere), while the
instance that callback was registered on does fire it. -/
theorem C8_per_instance_registry_witness :
    (Ev.cbRun .beforeInvoke 7 .unit ∉
       (runSyncInvoke ⟨simpleParams, mkToolHooks, fun _ => .ok (PyVal.int 1)⟩
         [("text", PyVal.str "a")]).1)
    ∧ runSyncInvoke
        (registerHook ⟨simpleParams, mkToolHooks, fun _ => .ok (PyVal.int 1)⟩
          .beforeInvoke ⟨7, Option.none⟩)
        [("text", PyVal.str "a")] =
      ([Ev.cbRun .beforeInvoke 7 .unit, Ev.validated, Ev.ranLogic],
       .ok (PyVal.int 1)) := by
  constructor
  · exact (C8_per_instance_registry
      ⟨simpleParams, mkToolHooks, fun _ => .ok (PyVal.int 1)⟩
      [("text", PyVal.str "a")] rfl).1 .beforeInvoke 7 .unit
  · exact (C8_per_instance_registry
      ⟨simpleParams, mkToolHooks, fun _ => .ok (PyVal.int 1)⟩
      [("text", PyVal.str "a")] rfl).2
      ⟨simpleParams, mkToolHooks, fun _ => .ok (PyVal.int 1)⟩
      ⟨7, Option.none⟩ [("text", PyVal.str "a")] (PyVal.int 1)
      rfl rfl rfl rfl

/-! ### Dispatch-containment lemmas -/

theorem countP_secondary_dispatchErrorEvent (p : CbPayload) (cbs : List Cb) :
    (dispatchErrorEvent p cbs).countP isSecondaryEv = 0 := by
  induction cbs with
  | nil => rfl
  | cons c rest ih =>
    cases hc : c.err <;>
      simp [dispatchErrorEvent, hc, List.countP_cons, isSecondaryEv, ih]

theorem not_mem_secondary_dispatchErrorEvent (s : EvKind) (e : PyErr)
    (p : CbPayload) (cbs : List Cb) :
    Ev.secondary s e ∉ dispatchErrorEvent p cbs := by
  induction cbs with
  | nil => simp [dispatchErrorEvent]
  | cons c rest ih =>
    cases hc : c.err <;> simp [dispatchErrorEvent, hc, ih]

theorem secondaryCount_dispatchEvent_ne_error (errCbs : List Cb) (k : EvKind)
    (p : CbPayload) (cbs : List Cb) (hk : k ≠ .error) :
    (dispatchEvent errCbs k p cbs).countP isSecondaryEv =
      cbs.countP (fun c => c.err.isSome) := by
  induction cbs with
  | nil => rfl
  | cons c rest ih =>
    cases hc : c.err with
    | none => simp [dispatchEvent, hc, List.countP_cons, isSecondaryEv, ih]
    | some e =>
      simp [dispatchEvent, hc, hk, List.countP_cons, List.countP_append,
        isSecondaryEv, countP_secondary_dispatchErrorEvent, ih]

theorem mem_secondary_dispatchEvent (errCbs : List Cb) (k : EvKind)
    (p : CbPayload) (cbs : List Cb) (s : EvKind) (e : PyErr)
    (h : Ev.secondary s e ∈ dispatchEvent errCbs k p cbs) :
    s = k ∧ ∃ c ∈ cbs, c.err = some e := by
  induction cbs with
  | nil => simp [dispatchEvent] at h
  | cons c rest ih =>
    cases hc : c.err with
    | none =>
      simp only [dispatchEvent, hc, List.mem_cons] at h
      rcases h with h | h
      · exact Ev.noConfusion h
      · obtain ⟨hs, c1, hm, hce⟩ := ih h
        exact ⟨hs, c1, List.mem_cons_of_mem _ hm, hce⟩
    | some e0 =>
      by_cases hk : k = EvKind.error
      · subst hk
        simp only [dispatchEvent, hc, if_pos rfl, List.nil_append,
          List.mem_cons] at h
        rcases h with h | h | h
        · exact Ev.noConfusion h
        · exact Ev.noConfusion h
        · obtain ⟨hs, c1, hm, hce⟩ := ih h
          exact ⟨hs, c1, List.mem_cons_of_mem _ hm, hce⟩
      · simp only [dispatchEvent, hc, if_neg hk, List.cons_append,
          List.mem_cons, List.mem_append] at h
        rcases h with h | h | h | h
        · exact Ev.noConfusion h
        · exact Ev.noConfusion h
        · obtain ⟨hs, he⟩ := Ev.secondary.inj h
          exact ⟨hs, c, List.mem_cons_self _ _, by rw [hc, he]⟩
        · rcases h with h | h
          · exact absurd h (not_mem_secondary_dispatchErrorEvent s e _ errCbs)
          · obtain ⟨hs, c1, hm, hce⟩ := ih h
            exact ⟨hs, c1, List.mem_cons_of_mem _ hm, hce⟩

theorem contained_mem_dispatchEvent (errCbs : List Cb) (k : EvKind)
    (p : CbPayload) (cbs : List Cb) (c : Cb) (hmem : c ∈ cbs) (e : PyErr)
    (hc : c.err = some e) :
    Ev.contained k c.id e ∈ dispatchEvent errCbs k p cbs := by
  induction cbs with
  | nil => simp at hmem
  | cons c0 rest ih =>
    rcases List.mem_cons.mp hmem with rfl | hmem1
    · simp [dispatchEvent, hc]
    · cases hc0 : c0.err <;> simp [dispatchEvent, hc0, ih hmem1]

/-! ### Claim C6 -/

/-- C6**: during suspending (asynchronous) hook dispatch a raising
callback's exception is contained: it is logged (`contained` event) and —
unless the event being dispatched is already `Error` — triggers exactly one
secondary `Error` dispatch carrying the original event kind as context; a
dispatch of the `Error` event itself (including every secondary dispatch)
triggers no further dispatch, so only one re-entry level ever occurs (the
secondary-dispatch count equals the number of raising callbacks of the
primary list alone); and the outcome the invocation caller sees is the
invocation's own outcome, never a hook callback's exception. -/
theorem C6_contained_dispatch (errCbs : List Cb) (k : EvKind) (p : CbPayload)
    (cbs : List Cb) :
    secondaryCount (dispatchEvent errCbs .error p cbs) = 0
    ∧ (k ≠ .error → secondaryCount (dispatchEvent errCbs k p cbs) = raisingCount cbs)
    ∧ (∀ s e, Ev.secondary s e ∈ dispatchEvent errCbs k p cbs →
        s = k ∧ ∃ c ∈ cbs, c.err = some e)
    ∧ (∀ c ∈ cbs, ∀ e, c.err = some e →
        Ev.contained k c.id e ∈ dispatchEvent errCbs k p cbs)
    ∧ (∀ (t : ToolM) (kwargs : Dict),
        (runAInvokeDefault t kwargs).2 =
          match validate_parameters t.params kwargs with
          | .error ve => .error (.validation ve)
          | .ok kwargs1 => (runSyncInvoke t kwargs1).2) := by
  refine ⟨?_, ?_, ?_, ?_, ?_⟩
  · rw [dispatchEvent_error_eq]
    exact countP_secondary_dispatchErrorEvent p cbs
  · intro hk
    exact secondaryCount_dispatchEvent_ne_error errCbs k p cbs hk
  · intro s e h
    exact mem_secondary_dispatchEvent errCbs k p cbs s e h
  · intro c hmem e hc
    exact contained_mem_dispatchEvent errCbs k p cbs c hmem e hc
  · intro t kwargs
    simp only [runAInvokeDefault]
    cases hv : validate_parameters t.params kwargs with
    | error ve => simp
    | ok kwargs1 =>
      cases hs : (runSyncInvoke t kwargs1).2 with
      | error e => simp [hs]
      | ok res => simp [hs]

/-- Witness for C6: dispatching `ainvoke:before` over one raising and one
normal callback, with an error hook that itself raises, produces exactly
one secondary dispatch — matching the number of raising primary
callbacks, with no re-entry from the raising error hook. -/
theorem C6_contained_dispatch_witness :
    secondaryCount
        (dispatchEvent [⟨5, some (.user 9)⟩] .beforeAInvoke .unit
          [⟨1, some (.user 3)⟩, ⟨2, Option.none⟩]) =
      raisingCount [⟨1, some (.user 3)⟩, ⟨2, Option.none⟩] :=
  (C6_contained_dispatch [⟨5, some (.user 9)⟩] .beforeAInvoke .unit
      [⟨1, some (.user 3)⟩, ⟨2, Option.none⟩]).2.1 (by decide)
